import Mathlib

/-!
Verification development for the ShareMe-GeoLead backend
(`src/backend/services/scraper_service.py`, `src/backend/routers/lists.py`).

The pandas/openpyxl tabular layer is embedded as explicit association-list
dataframes, the scraping pipeline (`GoogleMapsScraperService.run_scraping`) as a
pure function over an oracle environment standing for the Google Maps client,
and the per-file locking and atomic-write disciplines of the router as small
operational models.  Floating-point geometry is carried in exact integer
arithmetic over the flat-earth meter-offset frame that the source itself uses.
-/

namespace GeoLead

/-- A cell of the tabular store: a string, a boolean, or pandas `NaN`
(a missing value, produced when concatenation or reads leave a hole). -/
inductive Value where
  | s (str : String)
  | b (bool : Bool)
  | nan
deriving DecidableEq

/-- One row, as `pandas.DataFrame.to_dict(orient="records")` renders it:
an ordered association list from column name to cell value. -/
abbrev Row := List (String × Value)

/-- A dataframe: ordered column names plus rows. -/
structure DataFrame where
  cols : List String
  rows : List Row
deriving DecidableEq

/-- Cell access; a column missing from the row reads as `NaN`
(pandas reindexing semantics). -/
def rowGet (r : Row) (c : String) : Value := (r.lookup c).getD Value.nan

/-- `str(value)` as pandas `astype(str)` renders cells. -/
def valueStr : Value → String
  | .s str => str
  | .b true => "True"
  | .b false => "False"
  | .nan => "nan"

/-- `df[c] = v`: append a column holding the scalar `v` in every row
(used by `existing_df["Place_ID"] = ""`, scraper_service.py line 54). -/
def addColumn (df : DataFrame) (c : String) (v : Value) : DataFrame :=
  ⟨df.cols ++ [c], df.rows.map (fun r => r ++ [(c, v)])⟩

/-- The values of one column. -/
def colValues (df : DataFrame) (c : String) : List Value :=
  df.rows.map (fun r => rowGet r c)

/-- Align a row to a column list, filling holes with `NaN`. -/
def reindex (cols : List String) (r : Row) : Row :=
  cols.map (fun c => (c, rowGet r c))

/-- `pd.concat([a, b], ignore_index=True)`: the column union in order of first
appearance; every row realigned, holes becoming `NaN`
(scraper_service.py line 191). -/
def pdConcat (a b : DataFrame) : DataFrame :=
  let cols := a.cols ++ b.cols.filter (fun c => decide (¬ c ∈ a.cols))
  ⟨cols, (a.rows ++ b.rows).map (reindex cols)⟩

/-- `pd.DataFrame(records)` over a list of uniform dicts: columns are the keys
of the first record; the empty list gives the empty frame
(scraper_service.py line 190). -/
def dfOfRecords : List Row → DataFrame
  | [] => ⟨[], []⟩
  | r :: rs => ⟨r.map Prod.fst, r :: rs⟩

/-- `df.fillna("")`: every `NaN` cell becomes the empty string. -/
def dfFillna (df : DataFrame) : DataFrame :=
  ⟨df.cols, df.rows.map (fun r =>
    r.map (fun kv => (kv.1, if kv.2 = Value.nan then Value.s "" else kv.2)))⟩

/-- `df.to_dict(orient="records")`. -/
def toRecords (df : DataFrame) : List Row := df.rows.map (reindex df.cols)

/-- One Excel workbook: the primary record sheet plus the optional
`_ricerche` auxiliary search-log sheet. -/
structure Workbook where
  main : DataFrame
  ricerche : Option DataFrame
deriving DecidableEq

/-- `_save_preserving_ricerche` (lists.py lines 111-151) as a state transform:
the main sheet is replaced by `df` while the `_ricerche` sheet rows read at
entry are reattached. -/
def savePreservingRicerche (wb : Workbook) (df : DataFrame) : Workbook :=
  ⟨df, wb.ricerche⟩

/-- The columns `create_list` writes for a fresh list
(lists.py lines 54-57). -/
def createListCols : List String :=
  ["Place_ID", "Nome", "Indirizzo", "Telefono", "Sito Web", "Rating",
   "Categorie", "Keyword Ricerca", "Data Estrazione", "Hide", "Call",
   "Interested", "Note"]

/-- The header-only dataframe written by `create_list`. -/
def createListDF : DataFrame := ⟨createListCols, []⟩

/-! ## Grid planner (`generate_grid_points`, scraper_service.py lines 15-34)

A produced point is represented by its lattice offset `(i, j)`: the source
emits the geographic point `center + (i * step / 111320)` degrees of latitude
and `center + j * step / (111320 * cos lat)` degrees of longitude, which by the
source's own flat-earth convention corresponds to the planar offset
`(i * step, j * step)` meters from the center.  The float
`sqrt(x^2 + y^2) <= radius` test is carried exactly as
`x^2 + y^2 <= radius^2`. -/

/-- `math.ceil(radius_m / grid_step_m)`. -/
def numSteps (radius step : ℕ) : ℕ := (radius + step - 1) / step

/-- `range(-n, n + 1)` as integers. -/
def intRange (n : ℕ) : List ℤ :=
  (List.range (2 * n + 1)).map (fun (k : ℕ) => (k : ℤ) - (n : ℤ))

/-- The lattice offsets produced by `generate_grid_points`: the square
`[-n, n] × [-n, n]` filtered to the disk of the requested radius, `i` outer,
`j` inner, in source order. -/
def gridOffsets (radius step : ℕ) : List (ℤ × ℤ) :=
  (intRange (numSteps radius step)).flatMap (fun i =>
    (intRange (numSteps radius step)).filterMap (fun j =>
      if (i * step) ^ 2 + (j * step) ^ 2 ≤ ((radius : ℤ)) ^ 2 then
        some (i, j)
      else none))

/-- `int(grid_step_m * 1.5)` (scraper_service.py line 73): the provider
per-query radius before capping. -/
def searchRadius (step : ℕ) : ℕ := 3 * step / 2

/-- Lines 75-79: when the requested radius is covered by one provider query,
short-circuit to the single center point (offset `(0, 0)`) and use the
requested radius itself; otherwise plan the full grid and query with the
provider per-query radius. -/
def planSearch (radius step : ℕ) : List (ℤ × ℤ) × ℕ :=
  if radius ≤ searchRadius step then ([(0, 0)], radius)
  else (gridOffsets radius step, searchRadius step)

/-! ## The scraping pipeline (`run_scraping`, scraper_service.py lines 36-205)

The Google Maps client is an oracle environment; the SSE events the generator
yields are collected in order (their Italian message texts are abbreviated,
since no property depends on the wording).  Reads of the workbook are modelled
as succeeding; the surrounding handlers surface read exceptions as `error`
events and touch nothing. -/

/-- One event yielded by the generator. -/
inductive Event where
  | log (message : String)
  | progress (subtype : String) (value : ℕ) (label : String)
  | done (data : List Row)
  | error (message : String)
deriving DecidableEq

/-- A raw place stub from `places_nearby`: `place.get("place_id")` may be
absent (`none`); Python also treats the empty string as falsy. -/
structure Stub where
  placeId : Option String
  name : String
deriving DecidableEq

/-- One page of `places_nearby` results; `hasNext` is the truthiness of
`next_page_token`. -/
structure Page where
  results : List Stub
  hasNext : Bool

/-- The `result` dict of a `place` details call; every field the source reads
is optional, absent keys falling back to the `get` defaults.  Numeric ratings
are carried opaquely as strings. -/
structure Detail where
  name : Option String := none
  formattedAddress : Option String := none
  formattedPhoneNumber : Option String := none
  website : Option String := none
  rating : Option String := none
  types : Option (List String) := none
deriving DecidableEq

/-- The oracle for the external Google Maps client plus the clock. -/
structure Env where
  /-- whether `gmaps.geocode(city)` returns a nonempty result -/
  geocodeOk : Bool
  /-- `places_nearby` for (keyword, index of the grid point, page number) -/
  search : String → ℕ → ℕ → Page
  /-- `gmaps.place(place_id, fields=...)`: result dict, or the message of the
  exception it raised -/
  details : String → Except String Detail
  /-- `datetime.now().strftime("%d/%m/%Y %H:%M:%S")` -/
  now : String

/-- An accepted candidate awaiting detail enrichment
(the dicts appended to `places_data`, lines 128-132). -/
structure Cand where
  pid : String
  kw : String
  name : String
deriving DecidableEq

/-- `admit` outcome of the three-tier deduplication. -/
inductive Admit where
  | accept
  | dupInRun
  | dupInStore
deriving DecidableEq

/-- The classification order of lines 121-127: the current-run `seen` set is
consulted first, the store-level `known` set only afterwards. -/
def admitClassify (known seen : List String) (pid : String) : Admit :=
  if pid ∈ seen then .dupInRun
  else if pid ∈ known then .dupInStore
  else .accept

/-- Mutable state of the grid-search loop (lines 84-87). -/
structure GridState where
  seen : List String
  placesData : List Cand
  dupRun : ℕ
  dupDb : ℕ
deriving DecidableEq

/-- Lines 117-132: process one returned stub.  A falsy `place_id` (absent or
empty) is skipped; otherwise the id is classified, `seen` is extended on its
first occurrence, and only store-fresh first occurrences become candidates. -/
def processStub (known : List String) (kw : String) (st : GridState)
    (stub : Stub) : GridState :=
  match stub.placeId with
  | none => st
  | some pid =>
    if pid = "" then st
    else
      match admitClassify known st.seen pid with
      | .dupInRun => { st with dupRun := st.dupRun + 1 }
      | .dupInStore => { st with seen := pid :: st.seen, dupDb := st.dupDb + 1 }
      | .accept =>
          { st with seen := pid :: st.seen
                    placesData := st.placesData ++ [⟨pid, kw, stub.name⟩] }

/-- The `seen_place_ids.add(place_id)` update as a list-set insertion. -/
def insertSeen (seen : List String) (pid : String) : List String :=
  if pid ∈ seen then seen else pid :: seen

/-- The classification stream of the deduplication logic over a sequence of
place identifiers, threading the `seen` set exactly as lines 121-127 do. -/
def dedupGo (known : List String) (seen : List String) :
    List String → List Admit
  | [] => []
  | pid :: rest =>
      admitClassify known seen pid :: dedupGo known (insertSeen seen pid) rest

/-- Classifications of a run starting from the empty `seen` set (line 84). -/
def dedupOutcomes (known ids : List String) : List Admit :=
  dedupGo known [] ids

/-- The pagination loop (lines 101-137): up to 3 pages per point, stopping
when no `next_page_token` is returned. -/
def pagesGo (env : Env) (known : List String) (kw : String) (pIdx : ℕ) :
    ℕ → ℕ → GridState → GridState
  | 0, _, st => st
  | fuel + 1, page, st =>
    let pg := env.search kw pIdx page
    let st := pg.results.foldl (processStub known kw) st
    if pg.hasNext then pagesGo env known kw pIdx fuel (page + 1) st else st

/-- All pages of one (keyword, point) pair. -/
def fetchPoint (env : Env) (known : List String) (kw : String) (pIdx : ℕ)
    (st : GridState) : GridState :=
  pagesGo env known kw pIdx 3 0 st

/-- Accumulator of the grid loop: dedup state, `current_grid_step`, and the
events yielded so far. -/
structure GridAcc where
  st : GridState
  cgs : ℕ
  events : List Event

/-- One (keyword, point) pair (lines 97-141): the every-5-points log, the
pagination loop, then the grid progress event with value
`int(current_grid_step / total_grid_steps * 100)`. -/
def doPair (env : Env) (known : List String) (total : ℕ) (kw : String)
    (acc : GridAcc) (pIdx : ℕ) : GridAcc :=
  let ev := if pIdx % 5 = 0 ∧ 0 < pIdx
            then acc.events ++ [.log "avanzamento punto"] else acc.events
  let st := fetchPoint env known kw pIdx acc.st
  let cgs := acc.cgs + 1
  ⟨st, cgs, ev ++ [.progress "grid" (100 * cgs / total) "ricerca area"]⟩

/-- One keyword pass (lines 94-141): the keyword banner log then the inner
loop over all grid points. -/
def doKeyword (env : Env) (known : List String) (total nPts : ℕ)
    (acc : GridAcc) (kw : String) : GridAcc :=
  (List.range nPts).foldl (doPair env known total kw)
    { acc with events := acc.events ++ [.log "inizio estrazione keyword"] }

/-- The whole grid phase (lines 84-141), starting from the empty dedup state
and the `value = 0` grid progress event of line 92. -/
def gridPhase (env : Env) (known : List String) (keywords : List String)
    (nPts : ℕ) : GridAcc :=
  keywords.foldl (doKeyword env known (keywords.length * nPts) nPts)
    ⟨⟨[], [], 0, 0⟩, 0, [.progress "grid" 0 "ricerca avviata"]⟩

/-- The fixed field list of the details request (line 162). -/
def detailFields : List String := ["name", "formatted_address"]

/-- The provider's field-masking contract: a details response populates a key
only if it was in the requested field list.  This is the (external) behaviour
of the places details endpoint that the source's default-filling relies on. -/
def respectsFieldMask (fields : List String) (d : Detail) : Prop :=
  (d.formattedPhoneNumber ≠ none → "formatted_phone_number" ∈ fields) ∧
  (d.website ≠ none → "website" ∈ fields) ∧
  (d.rating ≠ none → "rating" ∈ fields) ∧
  (d.types ≠ none → "types" ∈ fields)

/-- Lines 166-179: the record dict built from one successful details call.
Note that only the `Hide` and `Call` flags are present. -/
def mkRecord (now : String) (c : Cand) (d : Detail) : Row :=
  [("Place_ID", .s c.pid),
   ("Nome", .s (d.name.getD c.name)),
   ("Indirizzo", .s (d.formattedAddress.getD "")),
   ("Telefono", .s (d.formattedPhoneNumber.getD "")),
   ("Sito Web", .s (d.website.getD "")),
   ("Rating", .s (d.rating.getD "")),
   ("Categorie", .s (String.intercalate ", " (d.types.getD []))),
   ("Keyword Ricerca", .s c.kw),
   ("Data Estrazione", .s now),
   ("Hide", .b false),
   ("Call", .b false)]

/-- The detail loop (lines 155-184): the every-10 log, the details call — a
failure logs and skips the candidate — and the per-candidate details progress
event, emitted whether or not the call succeeded. -/
def detailGo (env : Env) (total : ℕ) :
    List Cand → ℕ → List Row → List Event → List Row × List Event
  | [], _, res, ev => (res, ev)
  | c :: rest, i, res, ev =>
    let ev := if i % 10 = 0 then ev ++ [.log "progresso dettagli"] else ev
    match env.details c.pid with
    | .ok d =>
        detailGo env total rest (i + 1) (res ++ [mkRecord env.now c d])
          (ev ++ [.progress "details" (100 * (i + 1) / total) "recupero dettagli"])
    | .error e =>
        detailGo env total rest (i + 1) res
          (ev ++ [.log ("errore estrazione dettagli: " ++ e),
                  .progress "details" (100 * (i + 1) / total) "recupero dettagli"])

/-- The whole detail phase (lines 149-184), including the opening log and the
`value = 0` details progress event of line 152. -/
def detailPhase (env : Env) (places : List Cand) : List Row × List Event :=
  detailGo env places.length places 0 []
    [.log "recupero dettagli", .progress "details" 0 "estrazione dettagli avviata"]

/-- Line 53-54: make sure the `Place_ID` column exists, backfilling with the
empty string. -/
def ensurePlaceId (df : DataFrame) : DataFrame :=
  if "Place_ID" ∈ df.cols then df else addColumn df "Place_ID" (.s "")

/-- Line 57: `set(existing_df["Place_ID"].dropna().astype(str))`. -/
def knownIds (df : DataFrame) : List String :=
  (colValues df "Place_ID").filterMap
    (fun v => if v = Value.nan then none else some (valueStr v))

/-- Outcome of one run: the yielded events in order, the resulting stored
workbook, and whether the run wrote the file. -/
structure RunOut where
  events : List Event
  store : Option Workbook
  wrote : Bool

/-- The log events yielded before the grid loop on the successful path
(lines 48, 58, 63, 71, 81). -/
def preGridEvents : List Event :=
  [.log "caricamento lista", .log "lista caricata",
   .log "inizializzazione ricerca", .log "coordinate centrali trovate",
   .log "griglia generata"]

/-- Lines 143-202, after the grid loop: the zero-candidate early exit yields
`done` with the unchanged dataset and writes nothing; otherwise the detail
phase runs and the persist of line 194 rewrites the file via
`updated_df.to_excel(filepath)` — a direct single-sheet rewrite that holds no
lock and drops the `_ricerche` sheet. -/
def runAfterGrid (env : Env) (existing : DataFrame) (acc : GridAcc)
    (wb : Workbook) : RunOut :=
  if acc.st.placesData = [] then
    ⟨preGridEvents ++ acc.events ++
       [.log "ricerca griglia completata", .log "nessuna nuova attivita",
        .done (toRecords (dfFillna existing))],
     some wb, false⟩
  else
    ⟨preGridEvents ++ acc.events ++ [.log "ricerca griglia completata"] ++
       (detailPhase env acc.st.placesData).2 ++
       [.log "estrazione dettagli completata", .log "successo",
        .done (toRecords (dfFillna (pdConcat existing
          (dfOfRecords (detailPhase env acc.st.placesData).1))))],
     some ⟨pdConcat existing
       (dfOfRecords (detailPhase env acc.st.placesData).1), none⟩, true⟩

/-- `run_scraping` end to end: missing list and geocode failure abort with a
single `error` event and no mutation; otherwise the known-id set is loaded,
the search plan computed, and the grid, detail and persist phases run. -/
def runScraping (env : Env) (radius : ℕ) (keywords : List String)
    (gridStep : ℕ) (store : Option Workbook) : RunOut :=
  match store with
  | none => ⟨[.error "la lista non esiste"], none, false⟩
  | some wb =>
    if env.geocodeOk then
      runAfterGrid env (ensurePlaceId wb.main)
        (gridPhase env (knownIds (ensurePlaceId wb.main)) keywords
          (planSearch radius gridStep).1.length)
        wb
    else
      ⟨[.log "caricamento lista", .log "lista caricata",
        .log "inizializzazione ricerca",
        .error "impossibile trovare le coordinate"],
       some wb, false⟩

/-- The chronological sequence of `value`s of the progress events of one
subtype within an event stream. -/
def progressValues (sub : String) (evs : List Event) : List ℕ :=
  evs.filterMap (fun e =>
    match e with
    | .progress s v _ => if s = sub then some v else none
    | _ => none)

/-! ## The router's per-file lock discipline (lists.py lines 20-25, 167, 209)

`_file_locks` keys a `threading.Lock` by `os.path.normpath(filepath)`; the
note/row handlers hold it around their whole read-modify-write cycle, while
`run_scraping` reads (line 51) and writes (line 194) the same file without
acquiring it.  The two-thread machine below interleaves one locked and one
unlocked read-modify-write over the shared file. -/

/-- One step of a read-modify-write program: lock acquisition and release,
reading the file into a local register, or writing back a value computed from
the register. -/
inductive LOp where
  | acquire
  | release
  | readF
  | writeF
deriving DecidableEq

/-- A thread: its step sequence plus the pure transform its write applies to
the dataframe it read. -/
structure ThreadCode where
  ops : List LOp
  compute : DataFrame → DataFrame

/-- `update_note`'s dataframe transform (lists.py lines 168-180): ensure the
`Note` column, then set it on every row whose `Place_ID` stringifies to the
requested id. -/
def updateNoteDF (df : DataFrame) (pid note : String) : DataFrame :=
  let df := if "Note" ∈ df.cols then df else addColumn df "Note" (.s "")
  ⟨df.cols, df.rows.map (fun r =>
    if valueStr (rowGet r "Place_ID") = pid then
      r.map (fun kv => if kv.1 = "Note" then ("Note", Value.s note) else kv)
    else r)⟩

/-- The `update_note` handler's concurrency shape (lists.py lines 167-181):
the whole read-modify-write cycle runs inside `with _get_file_lock(filepath)`. -/
def updateNoteThread (pid note : String) : ThreadCode :=
  ⟨[.acquire, .readF, .writeF, .release], fun df => updateNoteDF df pid note⟩

/-- The scrape run's concurrency shape (scraper_service.py lines 51 and
188-194): the existing dataframe is read at run start and the concatenated
frame written at persist time, with no lock acquisition anywhere. -/
def persistThread (newRecords : List Row) : ThreadCode :=
  ⟨[.readF, .writeF], fun df => pdConcat df (dfOfRecords newRecords)⟩

/-- Machine state: the shared file, the lock holder, and each thread's
remaining steps and read register. -/
structure MState where
  file : DataFrame
  lockHeld : Option Bool
  pcA : List LOp
  regA : Option DataFrame
  pcB : List LOp
  regB : Option DataFrame

/-- Execute one step of one thread; a blocked `acquire` (lock held) leaves the
state unchanged — the waiter queues, as `threading.Lock` does. -/
def stepThread (code : ThreadCode) (tid : Bool) (pc : List LOp)
    (reg : Option DataFrame) (file : DataFrame) (lockHeld : Option Bool) :
    Option (List LOp × Option DataFrame × DataFrame × Option Bool) :=
  match pc with
  | [] => none
  | op :: rest =>
    match op with
    | .acquire =>
      match lockHeld with
      | none => some (rest, reg, file, some tid)
      | some _ => none
    | .release => some (rest, reg, file, none)
    | .readF => some (rest, some file, file, lockHeld)
    | .writeF => some (rest, reg, code.compute (reg.getD file), lockHeld)

/-- Schedule one step to thread `tid` (`true` = A, `false` = B). -/
def mstep (ca cb : ThreadCode) (s : MState) (tid : Bool) : MState :=
  if tid then
    match stepThread ca true s.pcA s.regA s.file s.lockHeld with
    | none => s
    | some (pc, reg, file, lk) =>
        { s with pcA := pc, regA := reg, file := file, lockHeld := lk }
  else
    match stepThread cb false s.pcB s.regB s.file s.lockHeld with
    | none => s
    | some (pc, reg, file, lk) =>
        { s with pcB := pc, regB := reg, file := file, lockHeld := lk }

/-- Run a schedule (a choice of thread per step). -/
def runSched (ca cb : ThreadCode) (sched : List Bool) (s : MState) : MState :=
  sched.foldl (mstep ca cb) s

/-! ## Write mechanics of the two save paths

`_save_preserving_ricerche` (lists.py lines 127-151) materializes the full new
workbook in a `tempfile.mkstemp` file, possibly rewrites that temp file to add
the `_ricerche` sheet, and only then swaps it over the original with one
`shutil.move`.  The pipeline's persist (scraper_service.py line 194) instead
calls `to_excel` directly on the target path.  The crash model below records
every state the target file can be observed in if execution stops during or
between the filesystem operations. -/

/-- A filesystem operation performed by a save path. -/
inductive FsOp where
  /-- write (or rewrite) the fully materialized content in the temp file -/
  | writeTmp
  /-- atomically rename the temp file over the target -/
  | swapTmp
  /-- write in place, directly to the target path -/
  | writeTarget
  /-- delete the temp file -/
  | removeTmp
deriving DecidableEq

/-- What an external reader can see in the target file. -/
inductive TView where
  | original
  | fresh
  | torn
deriving DecidableEq

/-- Target content after an operation completes. -/
def fsAfter : FsOp → TView → TView
  | .swapTmp, _ => .fresh
  | .writeTarget, _ => .fresh
  | _, t => t

/-- Target contents observable if execution stops in the middle of an
operation: a rename is atomic (old or new, never partial) while an in-place
write can be caught half-done. -/
def fsMid : FsOp → TView → List TView
  | .writeTmp, t => [t]
  | .removeTmp, t => [t]
  | .swapTmp, t => [t, .fresh]
  | .writeTarget, t => [t, .torn, .fresh]

/-- All target states observable at any crash point of an operation list. -/
def crashViews : List FsOp → TView → List TView
  | [], t => [t]
  | op :: rest, t => fsMid op t ++ crashViews rest (fsAfter op t)

/-- The operations of `_save_preserving_ricerche` (lists.py lines 127-146):
temp write, an extra temp rewrite when a `_ricerche` sheet must be reattached,
then the single `shutil.move`. -/
def savePreservingOps (hasRicerche : Bool) : List FsOp :=
  [.writeTmp] ++ (if hasRicerche then [.writeTmp] else []) ++ [.swapTmp]

/-- The operations of the pipeline's persist
(`updated_df.to_excel(filepath)`, scraper_service.py line 194). -/
def persistSaveOps : List FsOp := [.writeTarget]

/-! ## Concrete fixtures -/

/-- A populated `_ricerche` sheet: one past query. -/
def sampleRicerche : DataFrame :=
  ⟨["Keyword"], [[("Keyword", Value.s "bar")]]⟩

/-- A freshly created list whose workbook carries search history. -/
def wbWithLog : Workbook := ⟨createListDF, some sampleRicerche⟩

/-- A freshly created list with no search history. -/
def wbPlain : Workbook := ⟨createListDF, none⟩

/-- The candidate accepted in the one-place scenarios. -/
def candBarUno : Cand := ⟨"P1", "bar", "Bar Uno"⟩

/-- The details response of the one-place scenarios: only the two requested
fields are present. -/
def detailBarUno : Detail :=
  { name := some "Bar Uno", formattedAddress := some "Via Roma 1" }

/-- The record the pipeline builds for that place. -/
def rowBarUno : Row := mkRecord "01/01/2025 10:00:00" candBarUno detailBarUno

/-- A provider returning exactly one new place on the first page and full
details on request. -/
def envOnePlace : Env :=
  { geocodeOk := true
    search := fun _ _ page =>
      if page = 0 then ⟨[⟨some "P1", "Bar Uno"⟩], false⟩ else ⟨[], false⟩
    details := fun _ => .ok detailBarUno
    now := "01/01/2025 10:00:00" }

/-- A provider returning one new place whose details call then raises. -/
def envDetailFail : Env :=
  { envOnePlace with details := fun _ => .error "REQUEST_DENIED" }

/-- A provider returning no results at all. -/
def envNoResults : Env :=
  { envOnePlace with search := fun _ _ _ => ⟨[], false⟩ }

/-- The stored file the C2 interleaving starts from: one row `P1` with an
empty note. -/
def dfOneRow : DataFrame :=
  ⟨["Place_ID", "Note"], [[("Place_ID", Value.s "P1"), ("Note", Value.s "")]]⟩

/-- The row a concurrent scrape run appends in the C2 interleaving. -/
def rowP2 : Row :=
  [("Place_ID", Value.s "P2"), ("Note", Value.s "")]

/-- Initial machine state for the C2 interleaving: thread A is the locked
note update, thread B the unlocked scrape persist. -/
def lostUpdateStart : MState :=
  ⟨dfOneRow, none, (updateNoteThread "P1" "ciao").ops, none,
   (persistThread [rowP2]).ops, none⟩

/-- The interleaving: the scrape run reads, the note update then runs to
completion under the lock, and finally the scrape run writes. -/
def lostUpdateSched : List Bool :=
  [false, true, true, true, true, false]

/-! ## Claims about the grid planner -/

/-- A produced lattice offset satisfies the disk filter. -/
lemma mem_gridOffsets {radius step : ℕ} {p : ℤ × ℤ}
    (hp : p ∈ gridOffsets radius step) :
    (p.1 * step) ^ 2 + (p.2 * step) ^ 2 ≤ ((radius : ℤ)) ^ 2 := by
  rcases List.mem_flatMap.1 hp with ⟨i, _, hmem⟩
  rcases List.mem_filterMap.1 hmem with ⟨j, _, hj⟩
  by_cases hcond : (i * step) ^ 2 + (j * step) ^ 2 ≤ ((radius : ℤ)) ^ 2
  · rw [if_pos hcond] at hj
    cases hj
    exact hcond
  · rw [if_neg hcond] at hj
    cases hj

/-- C9: for all inputs with `step > 0`, every point produced by the grid
planner lies within `radius` of the center in the flat-earth local-meter
frame: its planar offset `(i * step, j * step)` meters satisfies
`x^2 + y^2 ≤ radius^2`, i.e. planar distance at most `radius`. -/
theorem grid_offsets_within_radius (radius step : ℕ) (_hstep : 0 < step)
    (p : ℤ × ℤ) (hp : p ∈ gridOffsets radius step) :
    (p.1 * step) ^ 2 + (p.2 * step) ^ 2 ≤ ((radius : ℤ)) ^ 2 :=
  mem_gridOffsets hp

/-- Witness for C9 at `radius = 1000`, `step = 500`, point offset `(1, 1)`. -/
theorem grid_offsets_within_radius_witness :
    0 < 500 ∧ ((1 : ℤ), (1 : ℤ)) ∈ gridOffsets 1000 500 ∧
      (((1 : ℤ), (1 : ℤ)).1 * 500) ^ 2 + (((1 : ℤ), (1 : ℤ)).2 * 500) ^ 2 ≤
        ((1000 : ℕ) : ℤ) ^ 2 :=
  ⟨by decide, by decide,
   grid_offsets_within_radius 1000 500 (by decide) ((1 : ℤ), (1 : ℤ)) (by decide)⟩

/-- C8: when twice the requested radius is at most three times the grid step —
i.e. `radius ≤ 1.5 * step`, exactly the source's
`radius <= int(grid_step_m * 1.5)` test — the plan is the single center point
(offset `(0, 0)`) and the query radius is the requested radius itself. -/
theorem small_radius_single_point (radius step : ℕ)
    (h : 2 * radius ≤ 3 * step) :
    planSearch radius step = ([((0 : ℤ), (0 : ℤ))], radius) := by
  have hle : radius ≤ searchRadius step := by
    unfold searchRadius
    omega
  unfold planSearch
  rw [if_pos hle]

/-- Witness for C8 at `radius = 300`, `step = 500`. -/
theorem small_radius_single_point_witness :
    2 * 300 ≤ 3 * 500 ∧
      planSearch 300 500 = ([((0 : ℤ), (0 : ℤ))], 300) :=
  ⟨by decide, small_radius_single_point 300 500 (by decide)⟩

/-! ## Claims about the deduplication ledger -/

lemma mem_insertSeen (seen : List String) (pid x : String) :
    x ∈ insertSeen seen pid ↔ x ∈ seen ∨ x = pid := by
  unfold insertSeen
  by_cases h : pid ∈ seen
  · rw [if_pos h]
    constructor
    · exact Or.inl
    · rintro (hx | rfl)
      · exact hx
      · exact h
  · rw [if_neg h]
    rw [List.mem_cons]
    tauto

lemma mem_foldl_insertSeen :
    ∀ (l seen : List String) (x : String),
      x ∈ l.foldl insertSeen seen ↔ x ∈ seen ∨ x ∈ l := by
  intro l
  induction l with
  | nil => intro seen x; simp
  | cons a t ih =>
    intro seen x
    rw [List.foldl_cons, ih, mem_insertSeen, List.mem_cons]
    tauto

lemma mem_take_iff_getElem :
    ∀ (l : List String) (k : ℕ) (x : String),
      x ∈ l.take k ↔ ∃ j, j < k ∧ l[j]? = some x := by
  intro l
  induction l with
  | nil => intro k x; simp
  | cons a t ih =>
    intro k x
    cases k with
    | zero => simp
    | succ n =>
      rw [List.take_succ_cons, List.mem_cons, ih]
      constructor
      · rintro (rfl | ⟨j, hj, hx⟩)
        · exact ⟨0, Nat.succ_pos n, by simp⟩
        · exact ⟨j + 1, Nat.succ_lt_succ hj, by simpa using hx⟩
      · rintro ⟨j, hj, hx⟩
        cases j with
        | zero =>
          left
          simp only [List.getElem?_cons_zero, Option.some.injEq] at hx
          exact hx.symm
        | succ m =>
          right
          exact ⟨m, Nat.lt_of_succ_lt_succ hj, by simpa using hx⟩

/-- The classification of the `k`-th identifier is decided against the `seen`
set accumulated over the first `k` identifiers. -/
lemma dedupGo_getElem (known : List String) :
    ∀ (ids seen : List String) (k : ℕ) (a : String),
      ids[k]? = some a →
      (dedupGo known seen ids)[k]? =
        some (admitClassify known ((ids.take k).foldl insertSeen seen) a) := by
  intro ids
  induction ids with
  | nil => intro seen k a h; simp at h
  | cons pid rest ih =>
    intro seen k a h
    cases k with
    | zero =>
      simp only [List.getElem?_cons_zero, Option.some.injEq] at h
      subst h
      simp [dedupGo]
    | succ n =>
      rw [List.getElem?_cons_succ] at h
      show (admitClassify known seen pid ::
        dedupGo known (insertSeen seen pid) rest)[n + 1]? = _
      rw [List.getElem?_cons_succ, ih (insertSeen seen pid) n a h,
        List.take_succ_cons, List.foldl_cons]

/-- C4: over any identifier sequence with a given `known` set, a
second-or-later occurrence of an id is classified `dupInRun` and never
`dupInStore`, while a first occurrence is classified `dupInStore` exactly
when the id is in `known` and accepted otherwise — so no occurrence is
counted in both duplicate tiers. -/
theorem dedup_two_tier_classification (known ids : List String) (k : ℕ)
    (a : String) (hk : ids[k]? = some a) :
    ((∃ j, j < k ∧ ids[j]? = some a) →
        (dedupOutcomes known ids)[k]? = some Admit.dupInRun) ∧
      ((¬ ∃ j, j < k ∧ ids[j]? = some a) →
        (dedupOutcomes known ids)[k]? =
          some (if a ∈ known then Admit.dupInStore else Admit.accept)) := by
  have hget := dedupGo_getElem known ids [] k a hk
  have hmem : a ∈ (ids.take k).foldl insertSeen [] ↔
      ∃ j, j < k ∧ ids[j]? = some a := by
    rw [mem_foldl_insertSeen, mem_take_iff_getElem]
    simp
  constructor
  · intro hex
    rw [dedupOutcomes, hget]
    simp only [admitClassify]
    rw [if_pos (hmem.2 hex)]
  · intro hnotex
    rw [dedupOutcomes, hget]
    simp only [admitClassify]
    rw [if_neg (fun hm => hnotex (hmem.1 hm))]

/-- Witness for C4: in the run `["A", "A", "K"]` against `known = ["K"]`, the
second occurrence of `"A"` is classified `dupInRun`. -/
theorem dedup_two_tier_classification_witness :
    (["A", "A", "K"][1]? = some "A") ∧
      (dedupOutcomes ["K"] ["A", "A", "K"])[1]? = some Admit.dupInRun :=
  ⟨by decide,
   (dedup_two_tier_classification ["K"] ["A", "A", "K"] 1 "A" (by decide)).1
     ⟨0, by decide, by decide⟩⟩

/-! ## Claims about the records built by the detail phase -/

/-- C6 (amended): a record built by a successful detail fetch is stamped with
the current timestamp and has `Hide = false` and `Call = false`, but carries
no `Interested` or `Note` key at all — those columns are left missing rather
than initialized. -/
theorem new_record_initial_fields (now : String) (c : Cand) (d : Detail) :
    rowGet (mkRecord now c d) "Hide" = Value.b false ∧
      rowGet (mkRecord now c d) "Call" = Value.b false ∧
      rowGet (mkRecord now c d) "Data Estrazione" = Value.s now ∧
      (mkRecord now c d).lookup "Interested" = none ∧
      (mkRecord now c d).lookup "Note" = none :=
  ⟨rfl, rfl, rfl, rfl, rfl⟩

/-- C6 counterexample: in a run against a freshly created list that accepts
one place, the persisted new row holds `NaN` — not the boolean `false` and
not the empty string — in its `Interested` and `Note` cells, while `Hide` and
`Call` do hold `false`; this refutes the claim that every new row is
persisted with `interested = false` and `note = ""`. -/
theorem persisted_row_missing_interested_note :
    ((runScraping envOnePlace 300 ["bar"] 500 (some wbPlain)).store.map
        (fun wb => rowGet (wb.main.rows.getD 0 []) "Interested"))
      = some Value.nan ∧
    ((runScraping envOnePlace 300 ["bar"] 500 (some wbPlain)).store.map
        (fun wb => rowGet (wb.main.rows.getD 0 []) "Note"))
      = some Value.nan ∧
    ((runScraping envOnePlace 300 ["bar"] 500 (some wbPlain)).store.map
        (fun wb => rowGet (wb.main.rows.getD 0 []) "Hide"))
      = some (Value.b false) := by
  refine ⟨?_, ?_, ?_⟩ <;> decide

/-- Records produced by the detail loop are exactly `mkRecord` applied to a
candidate and a successfully fetched details dict. -/
lemma detailGo_results_mem (env : Env) (total : ℕ) :
    ∀ (cs : List Cand) (i : ℕ) (res : List Row) (ev : List Event) (r : Row),
      r ∈ (detailGo env total cs i res ev).1 →
      r ∈ res ∨ ∃ c d, env.details c.pid = Except.ok d ∧
        r = mkRecord env.now c d := by
  intro cs
  induction cs with
  | nil => intro i res ev r h; exact Or.inl h
  | cons c rest ih =>
    intro i res ev r h
    cases hd : env.details c.pid with
    | ok d =>
      simp only [detailGo, hd] at h
      rcases ih (i + 1) _ _ r h with hres | hex
      · rcases List.mem_append.1 hres with h1 | h2
        · exact Or.inl h1
        · exact Or.inr ⟨c, d, hd, List.mem_singleton.1 h2⟩
      · exact Or.inr hex
    | error e =>
      simp only [detailGo, hd] at h
      exact ih (i + 1) _ _ r h

/-- C10: provided the details endpoint honours its field mask, every record
produced by the detail phase has empty phone, website, rating and category
cells, because the request asks only for `name` and `formatted_address` and
the remaining columns are filled from the `get` defaults. -/
theorem detail_fields_defaulted (env : Env) (places : List Cand)
    (hmask : ∀ pid d, env.details pid = Except.ok d →
      respectsFieldMask detailFields d)
    (r : Row) (hr : r ∈ (detailPhase env places).1) :
    rowGet r "Telefono" = Value.s "" ∧ rowGet r "Sito Web" = Value.s "" ∧
      rowGet r "Rating" = Value.s "" ∧ rowGet r "Categorie" = Value.s "" := by
  rcases detailGo_results_mem env places.length places 0 [] _ r hr with
    hres | ⟨c, d, hd, rfl⟩
  · simp at hres
  · have hm := hmask c.pid d hd
    have hphone : d.formattedPhoneNumber = none := by
      by_contra hne
      have := hm.1 hne
      simp [detailFields] at this
    have hweb : d.website = none := by
      by_contra hne
      have := hm.2.1 hne
      simp [detailFields] at this
    have hrat : d.rating = none := by
      by_contra hne
      have := hm.2.2.1 hne
      simp [detailFields] at this
    have htyp : d.types = none := by
      by_contra hne
      have := hm.2.2.2 hne
      simp [detailFields] at this
    refine ⟨?_, ?_, ?_, ?_⟩
    · show Value.s (d.formattedPhoneNumber.getD "") = Value.s ""
      rw [hphone]
      rfl
    · show Value.s (d.website.getD "") = Value.s ""
      rw [hweb]
      rfl
    · show Value.s (d.rating.getD "") = Value.s ""
      rw [hrat]
      rfl
    · show Value.s (String.intercalate ", " (d.types.getD [])) = Value.s ""
      rw [htyp]
      rfl

/-- Witness for C10 on the one-place scenario. -/
theorem detail_fields_defaulted_witness :
    (rowBarUno ∈ (detailPhase envOnePlace [candBarUno]).1) ∧
      rowGet rowBarUno "Telefono" = Value.s "" :=
  ⟨by decide,
   (detail_fields_defaulted envOnePlace [candBarUno]
      (fun pid d h => by
        injection h with h1
        subst h1
        exact ⟨fun hne => absurd rfl hne, fun hne => absurd rfl hne,
               fun hne => absurd rfl hne, fun hne => absurd rfl hne⟩)
      rowBarUno (by decide)).1⟩

/-! ## Claims about the persist write path -/

/-- C1 (failing run): a run that persists one new record against a list whose
workbook holds a populated `_ricerche` sheet writes the file and the stored
workbook comes back with no `_ricerche` sheet at all: the persist of
scraper_service.py line 194 rewrites only the primary table and destroys the
search log. -/
theorem persist_rewrite_drops_search_log :
    (runScraping envOnePlace 300 ["bar"] 500 (some wbWithLog)).wrote = true ∧
      ((runScraping envOnePlace 300 ["bar"] 500 (some wbWithLog)).store.map
          Workbook.ricerche) = some none ∧
      wbWithLog.ricerche = some sampleRicerche := by
  refine ⟨by decide, ?_, by decide⟩
  decide

/-- C2 (failing interleaving): the locked note update and the unlocked scrape
persist both run to completion, yet the final file has lost the note — the
persist read stale state before the update and wrote after it, which the
claimed per-path serialization would have made impossible. -/
theorem unlocked_persist_loses_note_update :
    (runSched (updateNoteThread "P1" "ciao") (persistThread [rowP2])
        lostUpdateSched lostUpdateStart).pcA = [] ∧
      (runSched (updateNoteThread "P1" "ciao") (persistThread [rowP2])
          lostUpdateSched lostUpdateStart).pcB = [] ∧
      rowGet ((runSched (updateNoteThread "P1" "ciao") (persistThread [rowP2])
          lostUpdateSched lostUpdateStart).file.rows.getD 0 []) "Note"
        = Value.s "" ∧
      rowGet ((updateNoteDF dfOneRow "P1" "ciao").rows.getD 0 []) "Note"
        = Value.s "ciao" := by
  refine ⟨?_, ?_, ?_, ?_⟩ <;> decide

/-- C3: a crash during the pipeline's persist — a direct in-place
`to_excel(filepath)` — can leave the target torn, while the crash views of
the temp-file-then-rename discipline of `_save_preserving_ricerche`,
enumerated exactly, contain only the original and the fresh content and never
a torn target. -/
theorem persist_write_can_tear_target :
    TView.torn ∈ crashViews persistSaveOps TView.original ∧
      crashViews (savePreservingOps true) TView.original =
        [TView.original, TView.original, TView.original, TView.fresh,
         TView.fresh] ∧
      crashViews (savePreservingOps false) TView.original =
        [TView.original, TView.original, TView.fresh, TView.fresh] := by
  refine ⟨by decide, by decide, by decide⟩

/-! ## Claims about the zero-new-records paths -/

/-- On the successful load-and-geocode path, `run_scraping` is the grid phase
followed by `runAfterGrid`. -/
lemma runScraping_some (env : Env) (wb : Workbook) (radius gridStep : ℕ)
    (keywords : List String) (hgeo : env.geocodeOk = true) :
    runScraping env radius keywords gridStep (some wb) =
      runAfterGrid env (ensurePlaceId wb.main)
        (gridPhase env (knownIds (ensurePlaceId wb.main)) keywords
          (planSearch radius gridStep).1.length)
        wb := by
  simp [runScraping, hgeo]

lemma getLast_append_three (l : List Event) (a b c : Event) :
    (l ++ [a, b, c]).getLast? = some c := by
  rw [show [a, b, c] = [a, b] ++ [c] from rfl, ← List.append_assoc,
    List.getLast?_concat]

/-- C5 (amended, proved part): when the grid search accepts zero candidates,
the run performs no write — the stored workbook is untouched — and ends with
a `done` event carrying the unchanged existing dataset. -/
theorem zero_candidates_skip_write (env : Env) (wb : Workbook)
    (radius gridStep : ℕ) (keywords : List String)
    (hgeo : env.geocodeOk = true)
    (hempty : (gridPhase env (knownIds (ensurePlaceId wb.main)) keywords
        (planSearch radius gridStep).1.length).st.placesData = []) :
    (runScraping env radius keywords gridStep (some wb)).wrote = false ∧
      (runScraping env radius keywords gridStep (some wb)).store = some wb ∧
      (runScraping env radius keywords gridStep (some wb)).events.getLast? =
        some (.done (toRecords (dfFillna (ensurePlaceId wb.main)))) := by
  rw [runScraping_some env wb radius gridStep keywords hgeo]
  unfold runAfterGrid
  rw [if_pos hempty]
  exact ⟨rfl, rfl, getLast_append_three _ _ _ _⟩

/-- Witness for C5 with a provider that returns no results. -/
theorem zero_candidates_skip_write_witness :
    envNoResults.geocodeOk = true ∧
      (gridPhase envNoResults (knownIds (ensurePlaceId wbPlain.main)) ["bar"]
          (planSearch 300 500).1.length).st.placesData = [] ∧
      (runScraping envNoResults 300 ["bar"] 500 (some wbPlain)).wrote = false ∧
      (runScraping envNoResults 300 ["bar"] 500 (some wbPlain)).store
        = some wbPlain ∧
      (runScraping envNoResults 300 ["bar"] 500 (some wbPlain)).events.getLast?
        = some (.done (toRecords (dfFillna (ensurePlaceId wbPlain.main)))) :=
  ⟨rfl, by decide,
   (zero_candidates_skip_write envNoResults wbPlain 300 500 ["bar"] rfl
      (by decide)).1,
   (zero_candidates_skip_write envNoResults wbPlain 300 500 ["bar"] rfl
      (by decide)).2.1,
   (zero_candidates_skip_write envNoResults wbPlain 300 500 ["bar"] rfl
      (by decide)).2.2⟩

/-- C5 counterexample: a run whose one accepted candidate fails its detail
fetch produces zero records, yet still writes the file — the source only
short-circuits on zero accepted candidates (line 144), not on zero surviving
records, so the claimed no-write guarantee fails for the detail-fetch case. -/
theorem detail_failures_still_write :
    (detailPhase envDetailFail
        (gridPhase envDetailFail (knownIds (ensurePlaceId wbPlain.main)) ["bar"]
          (planSearch 300 500).1.length).st.placesData).1 = [] ∧
      (runScraping envDetailFail 300 ["bar"] 500 (some wbPlain)).wrote = true := by
  refine ⟨?_, ?_⟩ <;> decide

/-! ## Claims about the progress event stream -/

lemma pv_append (sub : String) (a b : List Event) :
    progressValues sub (a ++ b) = progressValues sub a ++ progressValues sub b :=
  List.filterMap_append a b _

lemma pv_log (sub m : String) : progressValues sub [Event.log m] = [] := rfl

lemma pv_progress_self (sub : String) (v : ℕ) (lbl : String) :
    progressValues sub [Event.progress sub v lbl] = [v] := by
  simp [progressValues]

/-- One (keyword, point) pair emits exactly one grid progress value, the
floored percentage of the incremented step counter. -/
lemma doPair_pv (env : Env) (known : List String) (total : ℕ) (kw : String)
    (acc : GridAcc) (pIdx : ℕ) :
    progressValues "grid" (doPair env known total kw acc pIdx).events =
        progressValues "grid" acc.events ++ [100 * (acc.cgs + 1) / total] ∧
      (doPair env known total kw acc pIdx).cgs = acc.cgs + 1 := by
  unfold doPair
  by_cases h : pIdx % 5 = 0 ∧ 0 < pIdx
  · rw [if_pos h]
    exact ⟨by rw [pv_append, pv_append, pv_log, pv_progress_self,
      List.append_nil], rfl⟩
  · rw [if_neg h]
    exact ⟨by rw [pv_append, pv_progress_self], rfl⟩

/-- The inner loop over grid points emits one grid progress value per point,
with successively incremented counters. -/
lemma foldl_doPair_pv (env : Env) (known : List String) (total : ℕ)
    (kw : String) :
    ∀ (idxs : List ℕ) (acc : GridAcc),
      progressValues "grid"
          ((idxs.foldl (doPair env known total kw) acc).events) =
        progressValues "grid" acc.events ++
          (List.range idxs.length).map
            (fun k => 100 * (acc.cgs + k + 1) / total) ∧
      (idxs.foldl (doPair env known total kw) acc).cgs =
        acc.cgs + idxs.length := by
  intro idxs
  induction idxs with
  | nil => intro acc; simp
  | cons i t ih =>
    intro acc
    rw [List.foldl_cons]
    rcases ih (doPair env known total kw acc i) with ⟨ihpv, ihcgs⟩
    rcases doPair_pv env known total kw acc i with ⟨hpv, hcgs⟩
    constructor
    · rw [ihpv, hpv, hcgs, List.append_assoc, List.singleton_append]
      congr 1
      rw [List.length_cons, List.range_succ_eq_map, List.map_cons,
        List.map_map]
      congr 1
      apply List.map_congr_left
      intro k _
      simp only [Function.comp_apply]
      congr 1
      omega
    · rw [ihcgs, hcgs, List.length_cons]
      omega

/-- One keyword pass emits one grid progress value per grid point. -/
lemma doKeyword_pv (env : Env) (known : List String) (total nPts : ℕ)
    (acc : GridAcc) (kw : String) :
    progressValues "grid" ((doKeyword env known total nPts acc kw).events) =
        progressValues "grid" acc.events ++
          (List.range nPts).map (fun k => 100 * (acc.cgs + k + 1) / total) ∧
      (doKeyword env known total nPts acc kw).cgs = acc.cgs + nPts := by
  unfold doKeyword
  rcases foldl_doPair_pv env known total kw (List.range nPts)
      { acc with events := acc.events ++ [.log "inizio estrazione keyword"] }
    with ⟨hpv, hcgs⟩
  constructor
  · rw [hpv, List.length_range, pv_append, pv_log, List.append_nil]
  · rw [hcgs, List.length_range]

/-- The outer loop over keywords emits `keywords × points` grid progress
values in counter order. -/
lemma foldl_doKeyword_pv (env : Env) (known : List String) (total nPts : ℕ) :
    ∀ (kws : List String) (acc : GridAcc),
      progressValues "grid"
          ((kws.foldl (doKeyword env known total nPts) acc).events) =
        progressValues "grid" acc.events ++
          (List.range (kws.length * nPts)).map
            (fun k => 100 * (acc.cgs + k + 1) / total) ∧
      (kws.foldl (doKeyword env known total nPts) acc).cgs =
        acc.cgs + kws.length * nPts := by
  intro kws
  induction kws with
  | nil => intro acc; simp
  | cons kw t ih =>
    intro acc
    rw [List.foldl_cons]
    rcases ih (doKeyword env known total nPts acc kw) with ⟨ihpv, ihcgs⟩
    rcases doKeyword_pv env known total nPts acc kw with ⟨hpv, hcgs⟩
    constructor
    · rw [ihpv, hpv, hcgs, List.append_assoc]
      congr 1
      have hlen : (kw :: t).length * nPts = nPts + t.length * nPts := by
        rw [List.length_cons]
        ring
      rw [hlen, List.range_add, List.map_append, List.map_map]
      congr 1
      apply List.map_congr_left
      intro k _
      simp only [Function.comp_apply]
      congr 1
      omega
    · rw [ihcgs, hcgs, List.length_cons]
      ring

/-- The grid phase's chronological grid progress values: the opening `0` of
line 92 followed by the floored percentage of each completed pair. -/
lemma gridPhase_pv (env : Env) (known keywords : List String) (nPts : ℕ) :
    progressValues "grid" ((gridPhase env known keywords nPts).events) =
      0 :: (List.range (keywords.length * nPts)).map
        (fun k => 100 * (k + 1) / (keywords.length * nPts)) := by
  unfold gridPhase
  rcases foldl_doKeyword_pv env known (keywords.length * nPts) nPts keywords
      ⟨⟨[], [], 0, 0⟩, 0, [.progress "grid" 0 "ricerca avviata"]⟩
    with ⟨hpv, _⟩
  rw [hpv, pv_progress_self]
  rw [List.cons_append, List.nil_append]
  congr 1
  apply List.map_congr_left
  intro k _
  show 100 * (0 + k + 1) / (keywords.length * nPts) =
    100 * (k + 1) / (keywords.length * nPts)
  congr 1
  omega

lemma pv_progress_other (s sub : String) (h : s ≠ sub) (v : ℕ) (lbl : String) :
    progressValues sub [Event.progress s v lbl] = [] := by
  simp [progressValues, h]

lemma pv_ite_log (sub : String) (c : Prop) [Decidable c] (ev : List Event)
    (m : String) :
    progressValues sub (if c then ev ++ [Event.log m] else ev) =
      progressValues sub ev := by
  by_cases h : c
  · rw [if_pos h, pv_append, pv_log, List.append_nil]
  · rw [if_neg h]

lemma pv_progress_append (sub : String) (ev : List Event) (v : ℕ)
    (lbl : String) :
    progressValues sub (ev ++ [Event.progress sub v lbl]) =
      progressValues sub ev ++ [v] := by
  rw [pv_append, pv_progress_self]

lemma pv_log_progress (sub : String) (ev : List Event) (m : String) (v : ℕ)
    (lbl : String) :
    progressValues sub (ev ++ [Event.log m, Event.progress sub v lbl]) =
      progressValues sub ev ++ [v] := by
  rw [show [Event.log m, Event.progress sub v lbl] =
      [Event.log m] ++ [Event.progress sub v lbl] from rfl,
    ← List.append_assoc, pv_append, pv_append, pv_log, List.append_nil,
    pv_progress_self]

lemma pv_other_progress_append (s sub : String) (h : s ≠ sub)
    (ev : List Event) (v : ℕ) (lbl : String) :
    progressValues sub (ev ++ [Event.progress s v lbl]) =
      progressValues sub ev := by
  rw [pv_append, pv_progress_other s sub h, List.append_nil]

lemma pv_other_log_progress (s sub : String) (h : s ≠ sub) (ev : List Event)
    (m : String) (v : ℕ) (lbl : String) :
    progressValues sub (ev ++ [Event.log m, Event.progress s v lbl]) =
      progressValues sub ev := by
  rw [show [Event.log m, Event.progress s v lbl] =
      [Event.log m] ++ [Event.progress s v lbl] from rfl,
    ← List.append_assoc, pv_append, pv_append, pv_log,
    pv_progress_other s sub h, List.append_nil, List.append_nil]

/-- Aligning one freshly emitted progress value with the shifted remainder of
the loop. -/
lemma progress_range_step (i total n : ℕ) :
    [100 * (i + 1) / total] ++
        (List.range n).map (fun k => 100 * (i + 1 + k + 1) / total) =
      (List.range (n + 1)).map (fun k => 100 * (i + k + 1) / total) := by
  rw [List.singleton_append, List.range_succ_eq_map, List.map_cons,
    List.map_map]
  congr 1
  apply List.map_congr_left
  intro k _
  simp only [Function.comp_apply]
  congr 1
  omega

/-- The detail loop emits one `details` progress value per candidate,
in counter order, whether or not the detail call succeeded. -/
lemma detailGo_pv_details (env : Env) (total : ℕ) :
    ∀ (cs : List Cand) (i : ℕ) (res : List Row) (ev : List Event),
      progressValues "details" ((detailGo env total cs i res ev).2) =
        progressValues "details" ev ++
          (List.range cs.length).map (fun k => 100 * (i + k + 1) / total) := by
  intro cs
  induction cs with
  | nil => intro i res ev; simp [detailGo]
  | cons c rest ih =>
    intro i res ev
    cases hd : env.details c.pid with
    | ok d =>
      simp only [detailGo, hd]
      rw [ih, pv_progress_append, pv_ite_log, List.append_assoc,
        List.length_cons, progress_range_step]
    | error e =>
      simp only [detailGo, hd]
      rw [ih, pv_log_progress, pv_ite_log, List.append_assoc,
        List.length_cons, progress_range_step]

/-- The detail loop emits no `grid` progress values. -/
lemma detailGo_pv_grid (env : Env) (total : ℕ) :
    ∀ (cs : List Cand) (i : ℕ) (res : List Row) (ev : List Event),
      progressValues "grid" ((detailGo env total cs i res ev).2) =
        progressValues "grid" ev := by
  intro cs
  induction cs with
  | nil => intro i res ev; simp [detailGo]
  | cons c rest ih =>
    intro i res ev
    cases hd : env.details c.pid with
    | ok d =>
      simp only [detailGo, hd]
      rw [ih, pv_other_progress_append "details" "grid" (by decide),
        pv_ite_log]
    | error e =>
      simp only [detailGo, hd]
      rw [ih, pv_other_log_progress "details" "grid" (by decide), pv_ite_log]

/-- The detail phase's `details` progress values: the opening `0` of line 152
followed by one floored percentage per candidate. -/
lemma detailPhase_pv_details (env : Env) (places : List Cand) :
    progressValues "details" ((detailPhase env places).2) =
      0 :: (List.range places.length).map
        (fun k => 100 * (k + 1) / places.length) := by
  unfold detailPhase
  rw [detailGo_pv_details]
  rw [show progressValues "details"
      [Event.log "recupero dettagli",
       Event.progress "details" 0 "estrazione dettagli avviata"] = [0] from rfl]
  rw [List.singleton_append]
  congr 1
  apply List.map_congr_left
  intro k _
  congr 1
  omega

lemma detailPhase_pv_grid (env : Env) (places : List Cand) :
    progressValues "grid" ((detailPhase env places).2) = [] := by
  unfold detailPhase
  rw [detailGo_pv_grid]
  rfl

/-- Generic closure of an event-shape predicate through a fold that only
appends events. -/
lemma foldl_events_shape {α : Type} (f : GridAcc → α → GridAcc)
    (P : Event → Prop)
    (hf : ∀ acc x e, e ∈ (f acc x).events → e ∈ acc.events ∨ P e) :
    ∀ (l : List α) (acc : GridAcc) (e : Event),
      e ∈ (l.foldl f acc).events → e ∈ acc.events ∨ P e := by
  intro l
  induction l with
  | nil => intro acc e h; exact Or.inl h
  | cons x t ih =>
    intro acc e h
    rw [List.foldl_cons] at h
    rcases ih (f acc x) e h with hin | hp
    · exact hf acc x e hin
    · exact Or.inr hp

/-- Every event appended by one (keyword, point) pair is a log or a grid
progress event. -/
lemma doPair_shape (env : Env) (known : List String) (total : ℕ) (kw : String)
    (acc : GridAcc) (pIdx : ℕ) (e : Event)
    (he : e ∈ (doPair env known total kw acc pIdx).events) :
    e ∈ acc.events ∨ (∃ m, e = .log m) ∨ ∃ v l, e = .progress "grid" v l := by
  simp only [doPair] at he
  by_cases h : pIdx % 5 = 0 ∧ 0 < pIdx
  · rw [if_pos h] at he
    rcases List.mem_append.1 he with h1 | h2
    · rcases List.mem_append.1 h1 with h3 | h4
      · exact Or.inl h3
      · exact Or.inr (Or.inl ⟨_, List.mem_singleton.1 h4⟩)
    · exact Or.inr (Or.inr ⟨_, _, List.mem_singleton.1 h2⟩)
  · rw [if_neg h] at he
    rcases List.mem_append.1 he with h1 | h2
    · exact Or.inl h1
    · exact Or.inr (Or.inr ⟨_, _, List.mem_singleton.1 h2⟩)

/-- Every event appended by one keyword pass is a log or a grid progress
event. -/
lemma doKeyword_shape (env : Env) (known : List String) (total nPts : ℕ)
    (acc : GridAcc) (kw : String) (e : Event)
    (he : e ∈ (doKeyword env known total nPts acc kw).events) :
    e ∈ acc.events ∨ (∃ m, e = .log m) ∨ ∃ v l, e = .progress "grid" v l := by
  unfold doKeyword at he
  rcases foldl_events_shape (doPair env known total kw) _
      (fun acc x e hee => doPair_shape env known total kw acc x e hee)
      (List.range nPts) _ e he with hin | hp
  · rcases List.mem_append.1 hin with h1 | h2
    · exact Or.inl h1
    · exact Or.inr (Or.inl ⟨_, List.mem_singleton.1 h2⟩)
  · exact Or.inr hp

/-- Every event of the grid phase is a log or a grid progress event. -/
lemma gridPhase_shape (env : Env) (known keywords : List String) (nPts : ℕ)
    (e : Event) (he : e ∈ (gridPhase env known keywords nPts).events) :
    (∃ m, e = .log m) ∨ ∃ v l, e = .progress "grid" v l := by
  unfold gridPhase at he
  rcases foldl_events_shape (doKeyword env known (keywords.length * nPts) nPts)
      _
      (fun acc kw e hee =>
        doKeyword_shape env known (keywords.length * nPts) nPts acc kw e hee)
      keywords _ e he with hin | hp
  · exact Or.inr ⟨_, _, List.mem_singleton.1 hin⟩
  · exact hp

/-- The grid phase emits no `details` progress values. -/
lemma gridPhase_pv_details (env : Env) (known keywords : List String)
    (nPts : ℕ) :
    progressValues "details" ((gridPhase env known keywords nPts).events)
      = [] := by
  rw [progressValues, List.filterMap_eq_nil_iff]
  intro e he
  rcases gridPhase_shape env known keywords nPts e he with ⟨m, rfl⟩ | ⟨v, l, rfl⟩
  · rfl
  · show (if ("grid" : String) = "details" then some v else none) = none
    rw [if_neg (by decide)]

/-- The center offset is always part of the planned grid. -/
lemma zero_mem_gridOffsets (radius step : ℕ) :
    ((0 : ℤ), (0 : ℤ)) ∈ gridOffsets radius step := by
  unfold gridOffsets
  apply List.mem_flatMap.2
  have hmem : (0 : ℤ) ∈ intRange (numSteps radius step) :=
    List.mem_map.2 ⟨numSteps radius step,
      List.mem_range.2 (by omega), sub_self _⟩
  refine ⟨0, hmem, List.mem_filterMap.2 ⟨0, hmem, ?_⟩⟩
  rw [if_pos (by simp [sq_nonneg])]

/-- The planned point list is never empty. -/
lemma planSearch_len_pos (radius step : ℕ) :
    0 < (planSearch radius step).1.length := by
  unfold planSearch
  split
  · simp
  · exact List.length_pos.2
      (List.ne_nil_of_mem (zero_mem_gridOffsets radius step))

lemma chain_le_map_range :
    ∀ (n : ℕ) (f : ℕ → ℕ), (∀ k, f k ≤ f (k + 1)) →
      List.Chain' (fun a b => a ≤ b) ((List.range n).map f) := by
  intro n
  induction n with
  | zero => intro f _; simp
  | succ m ih =>
    intro f hf
    rw [List.range_succ_eq_map, List.map_cons, List.map_map]
    rw [List.chain'_cons']
    constructor
    · intro b hb
      cases m with
      | zero => simp at hb
      | succ p =>
        rw [List.range_succ_eq_map, List.map_cons, List.head?_cons] at hb
        rw [Option.mem_some_iff] at hb
        rw [← hb]
        exact hf 0
    · exact ih (f ∘ Nat.succ) (fun k => hf (k + 1))

/-- The progress value stream of either subtype is non-decreasing. -/
lemma chain_le_zero_cons (n total : ℕ) :
    List.Chain' (fun a b => a ≤ b)
      (0 :: (List.range n).map (fun k => 100 * (k + 1) / total)) := by
  rw [List.chain'_cons']
  constructor
  · intro b _
    exact Nat.zero_le b
  · exact chain_le_map_range n _
      (fun k => Nat.div_le_div_right (by omega))

/-- Before the final pair the floored percentage stays below 100. -/
lemma count_100_map_range (T : ℕ) (hT : 0 < T) :
    ((List.range T).map (fun k => 100 * (k + 1) / T)).count 100 = 1 := by
  obtain ⟨t, rfl⟩ : ∃ t, T = t + 1 := ⟨T - 1, by omega⟩
  rw [List.range_succ, List.map_append, List.count_append]
  have h0 : ((List.range t).map (fun k => 100 * (k + 1) / (t + 1))).count 100
      = 0 := by
    rw [List.count_eq_zero]
    intro hmem
    rcases List.mem_map.1 hmem with ⟨k, hk, hfk⟩
    rw [List.mem_range] at hk
    have hlt : 100 * (k + 1) / (t + 1) < 100 :=
      (Nat.div_lt_iff_lt_mul (by omega)).2 (by omega)
    rw [hfk] at hlt
    omega
  rw [h0]
  have hlast : 100 * (t + 1) / (t + 1) = 100 :=
    Nat.mul_div_cancel 100 (by omega)
  rw [show ([t].map (fun k => 100 * (k + 1) / (t + 1))) =
      [100 * (t + 1) / (t + 1)] from rfl, hlast]
  decide

/-- The floored percentage reaches exactly 100 at the final pair. -/
lemma getLast_100 (T : ℕ) (hT : 0 < T) :
    (0 :: (List.range T).map (fun k => 100 * (k + 1) / T)).getLast?
      = some 100 := by
  obtain ⟨t, rfl⟩ : ∃ t, T = t + 1 := ⟨T - 1, by omega⟩
  rw [List.range_succ, List.map_append]
  rw [show ([t].map (fun k => 100 * (k + 1) / (t + 1))) =
      [100 * (t + 1) / (t + 1)] from rfl,
    Nat.mul_div_cancel 100 (by omega)]
  rw [← List.cons_append, List.getLast?_concat]

lemma count_zero_cons (L : List ℕ) : (0 :: L).count 100 = L.count 100 := by
  rw [List.count_cons]
  simp

lemma pv_preGrid (sub : String) : progressValues sub preGridEvents = [] := rfl

lemma pv_log_log_done (sub m1 m2 : String) (data : List Row) :
    progressValues sub [Event.log m1, Event.log m2, Event.done data] = [] :=
  rfl

/-- The chronological grid progress values of a full successful run: the
opening `0` then one floored percentage per (keyword, point) pair, over
`keywords × points` pairs. -/
lemma runScraping_pv_grid (env : Env) (wb : Workbook) (radius gridStep : ℕ)
    (keywords : List String) (hgeo : env.geocodeOk = true) :
    progressValues "grid"
        ((runScraping env radius keywords gridStep (some wb)).events) =
      0 :: (List.range
          (keywords.length * (planSearch radius gridStep).1.length)).map
        (fun k => 100 * (k + 1) /
          (keywords.length * (planSearch radius gridStep).1.length)) := by
  rw [runScraping_some env wb radius gridStep keywords hgeo]
  unfold runAfterGrid
  by_cases h : (gridPhase env (knownIds (ensurePlaceId wb.main)) keywords
      (planSearch radius gridStep).1.length).st.placesData = []
  · rw [if_pos h, pv_append, pv_append, gridPhase_pv, pv_preGrid,
      pv_log_log_done]
    simp
  · rw [if_neg h, pv_append, pv_append, pv_append, pv_append, gridPhase_pv,
      detailPhase_pv_grid, pv_preGrid, pv_log, pv_log_log_done]
    simp

/-- The `details` progress values of a full successful run are
non-decreasing: they are empty when no candidate was accepted, and otherwise
the opening `0` followed by one floored percentage per candidate. -/
lemma runScraping_pv_details_chain (env : Env) (wb : Workbook)
    (radius gridStep : ℕ) (keywords : List String)
    (hgeo : env.geocodeOk = true) :
    List.Chain' (fun a b => a ≤ b)
      (progressValues "details"
        ((runScraping env radius keywords gridStep (some wb)).events)) := by
  rw [runScraping_some env wb radius gridStep keywords hgeo]
  unfold runAfterGrid
  by_cases h : (gridPhase env (knownIds (ensurePlaceId wb.main)) keywords
      (planSearch radius gridStep).1.length).st.placesData = []
  · rw [if_pos h, pv_append, pv_append, gridPhase_pv_details, pv_preGrid,
      pv_log_log_done]
    simp
  · rw [if_neg h, pv_append, pv_append, pv_append, pv_append,
      gridPhase_pv_details, detailPhase_pv_details, pv_preGrid, pv_log,
      pv_log_log_done]
    simp only [List.nil_append, List.append_nil]
    exact chain_le_zero_cons _ _

/-- C7: in any run that reaches the grid loop (list present, geocode
successful, at least one keyword, positive step), the progress values are
monotonically non-decreasing within each subtype, and the grid progress
reaches the value 100 exactly once, at the final (keyword, point) pair. -/
theorem progress_monotone_grid_completes_once (env : Env) (wb : Workbook)
    (radius gridStep : ℕ) (keywords : List String)
    (hgeo : env.geocodeOk = true) (hkw : keywords ≠ [])
    (_hstep : 0 < gridStep) :
    List.Chain' (fun a b => a ≤ b) (progressValues "grid"
        (runScraping env radius keywords gridStep (some wb)).events) ∧
      List.Chain' (fun a b => a ≤ b) (progressValues "details"
        (runScraping env radius keywords gridStep (some wb)).events) ∧
      (progressValues "grid"
          (runScraping env radius keywords gridStep (some wb)).events).count
        100 = 1 ∧
      (progressValues "grid"
          (runScraping env radius keywords gridStep
            (some wb)).events).getLast? = some 100 := by
  have hT : 0 < keywords.length * (planSearch radius gridStep).1.length :=
    Nat.mul_pos (List.length_pos.2 hkw) (planSearch_len_pos radius gridStep)
  have hg := runScraping_pv_grid env wb radius gridStep keywords hgeo
  refine ⟨?_,
    runScraping_pv_details_chain env wb radius gridStep keywords hgeo,
    ?_, ?_⟩
  · rw [hg]
    exact chain_le_zero_cons _ _
  · rw [hg, count_zero_cons, count_100_map_range _ hT]
  · rw [hg]
    exact getLast_100 _ hT

/-- Witness for C7 on a one-keyword, one-point run with no results. -/
theorem progress_monotone_grid_completes_once_witness :
    envNoResults.geocodeOk = true ∧ (["bar"] : List String).length = 1 ∧
      0 < 500 ∧
      (progressValues "grid"
          (runScraping envNoResults 300 ["bar"] 500
            (some wbPlain)).events).count 100 = 1 ∧
      (progressValues "grid"
          (runScraping envNoResults 300 ["bar"] 500
            (some wbPlain)).events).getLast? = some 100 :=
  ⟨rfl, by decide, by decide,
   (progress_monotone_grid_completes_once envNoResults wbPlain 300 500 ["bar"]
      rfl (by decide) (by decide)).2.2.1,
   (progress_monotone_grid_completes_once envNoResults wbPlain 300 500 ["bar"]
      rfl (by decide) (by decide)).2.2.2⟩

end GeoLead
